import Mathlib

/-!
# Verification of the Invitebot membership-tracking core

Shallow embedding of the invitation store, the attribution classifier, the
retry wrapper and the admin gate of `src/index.js` (the file concatenates
three deployment variants: the MySQL bot, the Telegraf/SQLite bot, and the
MySQL bot with the leave-reversal branch).  SQL tables are modelled as lists
of rows in insertion order (matching `AUTO_INCREMENT` ids and the default
scan order the code relies on); `NULL`able columns are `Option` fields.
-/

namespace Invitebot

/-! ## Store data model (MySQL variants, tables `invitations` and `ranking`) -/

/-- One row of the `invitations` table (schema at `src/index.js` lines 46-57). -/
structure InvitationRow where
  inviterId : Nat
  inviterUsername : Option String
  invitedId : Nat
  invitedUsername : Option String
deriving DecidableEq

/-- One row of the `ranking` table (schema at `src/index.js` lines 59-67);
`user_id` carries a `UNIQUE` constraint used by the upsert. -/
structure RankingRow where
  userId : Nat
  username : String
  count : Nat
deriving DecidableEq

/-- The database state: both tables, rows in insertion order. -/
structure DB where
  invitations : List InvitationRow
  ranking : List RankingRow
deriving DecidableEq

def emptyDB : DB := ⟨[], []⟩

/-- `SELECT * FROM invitations WHERE inviter_id = ? AND invited_id = ?`
returned at least one row (the pre-insert existence check of
`registerInvitation`, `src/index.js` lines 95-103). -/
def invPairExists (db : DB) (inviterId invitedId : Nat) : Bool :=
  db.invitations.any (fun r => r.inviterId == inviterId && r.invitedId == invitedId)

/-- `INSERT INTO ranking (user_id, username, count) VALUES (?, ?, 1)
ON DUPLICATE KEY UPDATE count = count + 1, username = VALUES(username)`
(`src/index.js` lines 110-117): on a `user_id` conflict the count is
incremented and the username overwritten, otherwise a fresh row with count 1
is appended. -/
def upsertRanking (l : List RankingRow) (userId : Nat) (uname : String) :
    List RankingRow :=
  if l.any (fun r => r.userId == userId) then
    l.map (fun r =>
      if r.userId == userId then { r with count := r.count + 1, username := uname }
      else r)
  else
    l ++ [⟨userId, uname, 1⟩]

/-- `registerInvitation` (`src/index.js` lines 93-125 and 833-860): existence
check, insert into `invitations`, upsert of the `ranking` counter.  Returns
the JS boolean together with the new state.  `inviterUsername || null` and
`inviterUsername || 'Unknown'` are modelled with `Option.getD` (`none`
standing for a JS-falsy username). -/
def registerInvitation (db : DB) (inviterId : Nat) (inviterUsername : Option String)
    (invitedId : Nat) (invitedUsername : Option String) : Bool × DB :=
  if invPairExists db inviterId invitedId then
    (false, db)
  else
    let db1 : DB :=
      { db with invitations :=
          db.invitations ++ [⟨inviterId, inviterUsername, invitedId, invitedUsername⟩] }
    let db2 : DB :=
      { db1 with ranking :=
          upsertRanking db1.ranking inviterId (inviterUsername.getD "Unknown") }
    (true, db2)

/-- `getUserInvitations` (`src/index.js` lines 168-184):
`SELECT count FROM ranking WHERE user_id = ?`, 0 when no row exists. -/
def getUserInvitations (db : DB) (userId : Nat) : Nat :=
  match db.ranking.find? (fun r => r.userId == userId) with
  | none => 0
  | some r => r.count

/-- SQL three-valued comparison `count > sub` where `sub` may be `NULL`
(`none`): a comparison against `NULL` is `NULL`, which a `WHERE` clause
treats as false. -/
def sqlGtNullable (a : Nat) (b : Option Nat) : Bool :=
  match b with
  | none => false
  | some v => decide (v < a)

/-- The scalar subquery `SELECT COALESCE(count, 0) FROM ranking WHERE
user_id = ?` of `getUserRankingPosition`: with zero matching rows the
subquery itself yields `NULL` (`COALESCE` never runs), with a matching row
it yields that row's count. -/
def rankingCountSubquery (db : DB) (userId : Nat) : Option Nat :=
  (db.ranking.find? (fun r => r.userId == userId)).map (fun r => r.count)

/-- `getUserRankingPosition` (`src/index.js` lines 186-201 and 906-918):
`SELECT COUNT(*) + 1 FROM ranking WHERE count > (subquery)`. -/
def getUserRankingPosition (db : DB) (userId : Nat) : Nat :=
  1 + (db.ranking.filter
        (fun r => sqlGtNullable r.count (rankingCountSubquery db userId))).length

/-- The rows selected by `SELECT username, count FROM ranking ORDER BY count
DESC LIMIT 10` before projection (`getRanking`, `src/index.js` lines
127-137). -/
def rankingTop (db : DB) : List RankingRow :=
  (db.ranking.mergeSort (fun a b => decide (b.count ≤ a.count))).take 10

/-- `getRanking`: the projection of `rankingTop` to `(username, count)`. -/
def getRanking (db : DB) : List (String × Nat) :=
  (rankingTop db).map (fun r => (r.username, r.count))

/-- The leave branch of variant 3's `chat_member` handler (`src/index.js`
lines 1177-1216): look up the rows of `invitations` whose `invited_id` is
the leaving user and take the first one's `inviter_id`; delete every
invitation row of the leaving user; read the inviter's ranking counter and
either delete the row (when `count - 1 <= 0`) or store the decremented
count. -/
def reverseInvite (db : DB) (leavingUserId : Nat) : DB :=
  match db.invitations.find? (fun r => r.invitedId == leavingUserId) with
  | none => db
  | some inv =>
    let inviterId := inv.inviterId
    let db1 : DB :=
      { db with invitations :=
          db.invitations.filter (fun r => !(r.invitedId == leavingUserId)) }
    match db1.ranking.find? (fun r => r.userId == inviterId) with
    | none => db1
    | some rr =>
      let nuevoCount := rr.count - 1
      if nuevoCount ≤ 0 then
        { db1 with ranking := db1.ranking.filter (fun r => !(r.userId == inviterId)) }
      else
        { db1 with ranking := db1.ranking.map (fun r =>
            if r.userId == inviterId then { r with count := nuevoCount } else r) }

/-! ## Telegram event model and the attribution classifier -/

/-- A Telegram user as the handlers read it.  `username`/`lastName` are
`none` when the field is absent or JS-falsy (empty). -/
structure TgUser where
  id : Nat
  username : Option String
  firstName : String
  lastName : Option String
deriving DecidableEq

/-- `usernameOf` (`src/index.js` lines 590-595): `@username` when present,
otherwise the non-empty name parts joined by a space, otherwise the
stringified id. -/
def usernameOf (u : TgUser) : String :=
  match u.username with
  | some un => "@" ++ un
  | none =>
    let parts := ([some u.firstName, u.lastName].filterMap id).filter
      (fun s => !(s == ""))
    let name := String.intercalate " " parts
    if name == "" then toString u.id else name

/-- The `invite_link` object carried by a `chat_member` update:
`{ invite_link, creator }`, either field possibly absent. -/
structure InviteLinkObj where
  inviteLink : Option String
  creator : Option TgUser
deriving DecidableEq

/-- A `chat_member` update as the Telegraf handler destructures it
(`src/index.js` lines 630-645): `old_chat_member?.status` and
`new_chat_member?.status` read with optional chaining, the acting user
`upd.from`, the joining user `upd.new_chat_member?.user` and the optional
invite-link object. -/
structure ChatMemberUpd where
  chatId : Nat
  fromUser : Option TgUser
  oldStatus : Option String
  newStatus : Option String
  newUser : Option TgUser
  inviteLink : Option InviteLinkObj
deriving DecidableEq

/-- `joinedNow` (`src/index.js` lines 637-639):
`(oldStatus !== 'member' && newStatus === 'member') ||
 (oldStatus !== 'restricted' && newStatus === 'restricted')`. -/
def joinedNow (u : ChatMemberUpd) : Bool :=
  (!(u.oldStatus == some "member") && (u.newStatus == some "member")) ||
  (!(u.oldStatus == some "restricted") && (u.newStatus == some "restricted"))

/-- One row of the Telegraf variant's `invites` table (schema at
`src/index.js` lines 565-577); the `joined_at` wall-clock timestamp is out
of the model's scope. -/
structure InviteRow where
  chatId : Nat
  joinedUserId : Nat
  joinedUsername : String
  inviterUserId : Option Nat
  inviterUsername : Option String
  method : String
  inviteLink : Option String
  inviteLinkCreatorId : Option Nat
  inviteLinkCreatorUsername : Option String
deriving DecidableEq

/-- The Telegraf `chat_member` handler (`src/index.js` lines 630-675) as the
row it inserts into `invites`, or `none` when nothing is inserted: either
`joinedNow` is false (early return), or the update lacks
`new_chat_member.user`, on which the source faults at `joinedUser.id`
before reaching the insert.  Method and inviter follow the source exactly:
`method` starts as `self_join`, becomes `invite_link` when a link object is
present, and when an acting user distinct from the joiner exists it becomes
`invite_link`/`approved` with the actor as inviter; the inserted inviter
column falls back to the link creator when no acting inviter was kept. -/
def classifyChatMember (u : ChatMemberUpd) : Option InviteRow :=
  if joinedNow u then
    match u.newUser with
    | none => none
    | some joinedUser =>
      let link := u.inviteLink
      let inviteLinkStr : Option String := link.bind (fun l => l.inviteLink)
      let linkCreator : Option TgUser := link.bind (fun l => l.creator)
      let base : String := if link.isSome then "invite_link" else "self_join"
      let acted : Bool :=
        match u.fromUser with
        | some a => !(a.id == joinedUser.id)
        | none => false
      let method : String :=
        if acted then (if link.isSome then "invite_link" else "approved") else base
      let inviterUser : Option TgUser := if acted then u.fromUser else none
      some {
        chatId := u.chatId
        joinedUserId := joinedUser.id
        joinedUsername := usernameOf joinedUser
        inviterUserId :=
          match inviterUser with
          | some iu => some iu.id
          | none => linkCreator.map (fun c => c.id)
        inviterUsername :=
          match inviterUser with
          | some iu => some (usernameOf iu)
          | none => linkCreator.map usernameOf
        method := method
        inviteLink := inviteLinkStr
        inviteLinkCreatorId := linkCreator.map (fun c => c.id)
        inviteLinkCreatorUsername := linkCreator.map usernameOf }
  else none

/-- Display name used by the MySQL variants: `user.username ||
user.first_name`. -/
def displayName (u : TgUser) : String := u.username.getD u.firstName

/-- The member branch of variant 1's `chat_member` handler (`src/index.js`
lines 414-433): whenever `new_chat_member.status === 'member'` it calls
`registerInvitation(from.id, ..., new_chat_member.user.id, ...)` — the old
status is never consulted and `from` is credited as inviter even when it is
the joining user itself. -/
def v1MemberBranch (db : DB) (fromUser : TgUser) (newStatus : String)
    (newUser : TgUser) : Bool × DB :=
  if newStatus == "member" then
    registerInvitation db fromUser.id (some (displayName fromUser))
      newUser.id (some (displayName newUser))
  else (false, db)

/-! ## Retry wrapper around the database -/

/-- Trace of one `executeQuery` run: the surfaced result, how many times the
underlying `pool.execute` was attempted, and every
`setTimeout(resolve, 1000)` wait performed between attempts. -/
structure QueryTrace (E A : Type) where
  result : Except E A
  attemptsMade : Nat
  sleepsMs : List Nat

/-- The body of `executeQuery`'s `while (retries > 0)` loop (`src/index.js`
lines 77-90).  `retriesLeft` counts the retries still available AFTER the
current attempt (the JS `retries` counter equals `retriesLeft + 1` at the
top of an iteration): a successful attempt returns, a failed attempt with
`retriesLeft = 0` throws the error (`if (retries === 0) throw error`), and
otherwise the loop sleeps 1000 ms and tries again. -/
def execRetry (attempt : Nat → Except E A) (retriesLeft idx : Nat) : QueryTrace E A :=
  match attempt idx with
  | .ok results => ⟨.ok results, idx + 1, []⟩
  | .error e =>
    match retriesLeft with
    | 0 => ⟨.error e, idx + 1, []⟩
    | r + 1 =>
      let t := execRetry attempt r (idx + 1)
      ⟨t.result, t.attemptsMade, 1000 :: t.sleepsMs⟩

/-- `executeQuery` (`src/index.js` lines 77-90): `let retries = 3`, so the
first attempt has two retries left. -/
def executeQuery (attempt : Nat → Except E A) : QueryTrace E A :=
  execRetry attempt 2 0

/-- `executeQuery` unrolled at the constant `retries = 3`; definitional. -/
theorem executeQuery_eq (attempt : Nat → Except E A) :
    executeQuery attempt =
      match attempt 0 with
      | .ok a => ⟨.ok a, 1, []⟩
      | .error _ =>
        match attempt 1 with
        | .ok a => ⟨.ok a, 2, [1000]⟩
        | .error _ =>
          match attempt 2 with
          | .ok a => ⟨.ok a, 3, [1000, 1000]⟩
          | .error e => ⟨.error e, 3, [1000, 1000]⟩ := by
  unfold executeQuery execRetry
  cases attempt 0 <;> [skip; rfl]
  unfold execRetry
  cases attempt 1 <;> [skip; rfl]
  unfold execRetry
  cases attempt 2 <;> rfl

/-! ## Admin gate and the privileged ranking command -/

/-- An entry of the `getChatAdministrators` reply. -/
structure ChatAdmin where
  user : TgUser
deriving DecidableEq

/-- `isUserAdmin` (`src/index.js` lines 158-166 and 885-892): the external
`bot.getChatAdministrators` capability is an oracle from chat id to either
a fault or the admin list; a fault is caught and turned into `false`, a
reply is scanned with `admins.some(admin => admin.user.id === userId)`. -/
def isUserAdmin (getChatAdministrators : Nat → Except Unit (List ChatAdmin))
    (chatId userId : Nat) : Bool :=
  match getChatAdministrators chatId with
  | .ok admins => admins.any (fun a => a.user.id == userId)
  | .error _ => false

/-- The fields of a command message the `/ranking` handler reads. -/
structure CommandMsg where
  chatId : Nat
  chatType : String
  fromId : Nat
deriving DecidableEq

/-- The access decision of the `/ranking` handler (`src/index.js` lines
288-308 and 1048-1068): it calls `isUserAdmin(msg.chat.id, msg.from.id)`
for every message — `msg.chat.type` is never consulted, there is no
private-chat branch. -/
def rankingAccessGranted (getChatAdministrators : Nat → Except Unit (List ChatAdmin))
    (msg : CommandMsg) : Bool :=
  isUserAdmin getChatAdministrators msg.chatId msg.fromId

/-! ## Claim theorems -/

/-- `joinedNow` as a proposition on the status pair. -/
theorem joinedNow_iff (u : ChatMemberUpd) :
    joinedNow u = true ↔
      ((u.oldStatus ≠ some "member" ∧ u.newStatus = some "member") ∨
       (u.oldStatus ≠ some "restricted" ∧ u.newStatus = some "restricted")) := by
  simp [joinedNow]

/-- C2: a join-classified `chat_member` update carrying both an invite-link
object and an acting user distinct from the joining user classifies as
`invite_link` with the acting user — not the link's creator — credited as
inviter. -/
theorem c2_link_with_actor_credits_actor (u : ChatMemberUpd)
    (joinedUser actor : TgUser) (linkObj : InviteLinkObj)
    (hjoin : joinedNow u = true) (hnew : u.newUser = some joinedUser)
    (hfrom : u.fromUser = some actor) (hlink : u.inviteLink = some linkObj)
    (hne : actor.id ≠ joinedUser.id) :
    ∃ row, classifyChatMember u = some row ∧
      row.method = "invite_link" ∧ row.inviterUserId = some actor.id := by
  have hb : (actor.id == joinedUser.id) = false := by
    simpa using hne
  unfold classifyChatMember
  rw [hjoin, hnew, hfrom, hlink]
  simp only [if_true, Option.isSome_some, hb, Bool.not_false, if_pos]
  exact ⟨_, rfl, rfl, rfl⟩

/-- C2 witness: an admin (id 9) admits user 3 with a link created by user 1;
the inviter credited is 9. -/
theorem c2_witness :
    ∃ row, classifyChatMember
        ⟨100, some ⟨9, some "ada", "Ada", none⟩, some "left", some "member",
         some ⟨3, some "nina", "Nina", none⟩,
         some ⟨some "https://t.me/+xyz", some ⟨1, some "alice", "Alice", none⟩⟩⟩
        = some row ∧
      row.method = "invite_link" ∧ row.inviterUserId = some 9 :=
  c2_link_with_actor_credits_actor _ ⟨3, some "nina", "Nina", none⟩
    ⟨9, some "ada", "Ada", none⟩
    ⟨some "https://t.me/+xyz", some ⟨1, some "alice", "Alice", none⟩⟩
    (by decide) rfl rfl rfl (by decide)

/-- The `restricted → member` transition of user 3 joining on their own. -/
def updRestrictedToMember : ChatMemberUpd :=
  ⟨100, some ⟨3, some "cara", "Cara", none⟩, some "restricted", some "member",
   some ⟨3, some "cara", "Cara", none⟩, none⟩

/-- C3 counterexample: a transition whose old status is already in the
claimed active set {member, restricted} — here `restricted → member` — is
treated as a join by `joinedNow` and does produce an invite record,
refuting the claimed "old status ∉ {member, restricted-active}"
condition. -/
theorem c3_counterexample :
    updRestrictedToMember.oldStatus = some "restricted" ∧
    updRestrictedToMember.newStatus = some "member" ∧
    joinedNow updRestrictedToMember = true ∧
    (classifyChatMember updRestrictedToMember).isSome = true := by
  decide

/-- C3 (amended): a transition is treated as a join iff the new status is
`member` and the old one is not `member`, or the new status is `restricted`
and the old one is not `restricted` (so `restricted → member` and
`member → restricted` both count as joins); no record is created when
`joinedNow` fails, in particular for every transition into `administrator`,
`left` or `kicked`; and every `joinedNow` transition carrying the joining
user does create a record. -/
theorem c3_join_condition (u : ChatMemberUpd) :
    (joinedNow u = true ↔
      ((u.oldStatus ≠ some "member" ∧ u.newStatus = some "member") ∨
       (u.oldStatus ≠ some "restricted" ∧ u.newStatus = some "restricted"))) ∧
    (joinedNow u = false → classifyChatMember u = none) ∧
    ((u.newStatus = some "administrator" ∨ u.newStatus = some "left" ∨
        u.newStatus = some "kicked") → classifyChatMember u = none) ∧
    (∀ ju, u.newUser = some ju → joinedNow u = true →
      (classifyChatMember u).isSome = true) := by
  have hnone : joinedNow u = false → classifyChatMember u = none := by
    intro h
    unfold classifyChatMember
    rw [h]
    rfl
  refine ⟨joinedNow_iff u, hnone, ?_, ?_⟩
  · intro h
    apply hnone
    rcases h with h | h | h <;> simp [joinedNow, h]
  · intro ju hju hjoin
    unfold classifyChatMember
    rw [hjoin, hju]
    simp

/-- C3 witness for the amended statement: a `left → administrator`
transition creates no record. -/
theorem c3_witness :
    classifyChatMember
      ⟨100, some ⟨4, none, "Dan", none⟩, some "left", some "administrator",
       some ⟨4, none, "Dan", none⟩, none⟩ = none :=
  (c3_join_condition _).2.2.1 (Or.inl rfl)

/-- User 5 joining on their own: variant 1's handler sees `from` equal to
`new_chat_member.user`. -/
def selfJoinUser : TgUser := ⟨5, some "eve", "Eve", none⟩

/-- C4 (code bug in variant 1; variant 3 adds the missing
`from.id !== new_chat_member.user.id` guard and the Telegraf classifier
emits `self_join` with no inviter): on a pure self-join update — acting
user equal to the joining user, no invite link — variant 1's member branch
still records an invitation, crediting the joiner as their own inviter and
setting their own ranking counter to 1, where the claim requires no
inviter and no count. -/
theorem c4_v1_selfjoin_credits_joiner :
    (v1MemberBranch emptyDB selfJoinUser "member" selfJoinUser).1 = true ∧
    (v1MemberBranch emptyDB selfJoinUser "member" selfJoinUser).2.invitations =
      [⟨5, some "eve", 5, some "eve"⟩] ∧
    getUserInvitations (v1MemberBranch emptyDB selfJoinUser "member" selfJoinUser).2 5
      = 1 := by
  decide

/-- C7: the query helper makes at most 3 attempts, every wait between
attempts is the fixed 1000 ms, and it surfaces an error exactly when all
three attempts fail — the surfaced error being the third attempt's. -/
theorem c7_retry_three_attempts {E A : Type} (attempt : Nat → Except E A) :
    (executeQuery attempt).attemptsMade ≤ 3 ∧
    (∀ s ∈ (executeQuery attempt).sleepsMs, s = 1000) ∧
    (∀ e : E, (executeQuery attempt).result = Except.error e ↔
      ((∃ e0, attempt 0 = Except.error e0) ∧
       (∃ e1, attempt 1 = Except.error e1) ∧
       attempt 2 = Except.error e)) := by
  rw [executeQuery_eq]
  cases h0 : attempt 0 <;> cases h1 : attempt 1 <;> cases h2 : attempt 2 <;>
    simp [h0, h1, h2]

/-- C7 witness: the attempt bound evaluated on an always-failing oracle. -/
theorem c7_witness :
    (executeQuery (fun _ => (Except.error 0 : Except Nat Nat))).attemptsMade ≤ 3 :=
  (c7_retry_three_attempts (fun _ => (Except.error 0 : Except Nat Nat))).1

/-- C8: when the external membership-info lookup faults for a chat, the
admin gate returns `false` for every requesting user of that chat instead
of propagating the fault. -/
theorem c8_admin_gate_fail_closed
    (getAdmins : Nat → Except Unit (List ChatAdmin)) (chatId userId : Nat)
    (h : getAdmins chatId = Except.error ()) :
    isUserAdmin getAdmins chatId userId = false := by
  unfold isUserAdmin
  rw [h]

/-- C8 witness: a concrete always-faulting lookup yields `false`. -/
theorem c8_witness :
    isUserAdmin (fun _ => Except.error ()) 100 7 = false :=
  c8_admin_gate_fail_closed (fun _ => Except.error ()) 100 7 rfl

/-- A `/ranking` command message sent in a one-to-one chat. -/
def privateRankingMsg : CommandMsg := ⟨10, "private", 7⟩

/-- C9 (code bug: `/ranking`'s own help text promises "En chat privado
(todos disponibles)"): the handler gates `/ranking` on `isUserAdmin` with
no private-chat branch, so in a one-to-one chat — where the
`getChatAdministrators` capability faults (and even if it answered an
empty list) — every requesting user is denied, not authorized. -/
theorem c9_private_chat_denied :
    privateRankingMsg.chatType = "private" ∧
    rankingAccessGranted (fun _ => Except.error ()) privateRankingMsg = false ∧
    rankingAccessGranted (fun _ => Except.ok []) privateRankingMsg = false := by
  decide

/-- C10: a user with no `ranking` row gets position 1: the scalar subquery
returns NULL, the strictly-greater comparison excludes every row, and
`COUNT(*) + 1` is 1. -/
theorem c10_absent_user_position_one (db : DB) (userId : Nat)
    (h : ∀ r ∈ db.ranking, r.userId ≠ userId) :
    getUserRankingPosition db userId = 1 := by
  have hfind : db.ranking.find? (fun r => r.userId == userId) = none := by
    simp only [List.find?_eq_none, beq_iff_eq]
    exact h
  unfold getUserRankingPosition rankingCountSubquery
  rw [hfind]
  simp [sqlGtNullable]

/-- C10 witness: any user is ranked first in the empty table. -/
theorem c10_witness : getUserRankingPosition emptyDB 42 = 1 :=
  c10_absent_user_position_one emptyDB 42 (by simp [emptyDB])

/-! ## Helper lemmas on list filters and lookups -/

theorem filter_length_mono {α : Type} {p q : α → Bool} :
    ∀ l : List α, (∀ x ∈ l, p x = true → q x = true) →
      (l.filter p).length ≤ (l.filter q).length
  | [], _ => by simp
  | a :: t, h => by
    have ht : ∀ x ∈ t, p x = true → q x = true :=
      fun x hx => h x (List.mem_cons_of_mem a hx)
    have iht := filter_length_mono t ht
    cases hp : p a with
    | true =>
      have hq := h a (List.mem_cons_self a t) hp
      simp only [List.filter_cons, hp, hq, if_true, List.length_cons]
      omega
    | false =>
      cases hq : q a with
      | true =>
        simp only [List.filter_cons, hp, hq, if_true, Bool.false_eq_true,
          if_false, List.length_cons]
        omega
      | false =>
        simp only [List.filter_cons, hp, hq, Bool.false_eq_true, if_false]
        exact iht

theorem filter_length_strict {α : Type} {p q : α → Bool} :
    ∀ l : List α, (∀ x ∈ l, p x = true → q x = true) →
      ∀ x0 ∈ l, q x0 = true → p x0 = false →
      (l.filter p).length < (l.filter q).length
  | [], _, x0, hx0, _, _ => absurd hx0 (List.not_mem_nil x0)
  | a :: t, h, x0, hx0, hq0, hp0 => by
    have ht : ∀ x ∈ t, p x = true → q x = true :=
      fun x hx => h x (List.mem_cons_of_mem a hx)
    rcases List.mem_cons.mp hx0 with rfl | hx0t
    · have hmono := filter_length_mono t ht
      simp only [List.filter_cons, hp0, hq0, if_true, Bool.false_eq_true,
        if_false, List.length_cons]
      omega
    · have ihs := filter_length_strict t ht x0 hx0t hq0 hp0
      cases hp : p a with
      | true =>
        have hq := h a (List.mem_cons_self a t) hp
        simp only [List.filter_cons, hp, hq, if_true, List.length_cons]
        omega
      | false =>
        cases hq : q a with
        | true =>
          simp only [List.filter_cons, hp, hq, if_true, Bool.false_eq_true,
            if_false, List.length_cons]
          omega
        | false =>
          simp only [List.filter_cons, hp, hq, Bool.false_eq_true, if_false]
          exact ihs

/-- C1: recording the same `(inviter A, invited B)` pair twice, from a state
with no `(A, B)` invitation row and no ranking row for `A`, returns `true`
then `false`, touches nothing on the second call, and leaves exactly one
invitation row for the pair and a ranking counter of 1 for `A`. -/
theorem c1_register_idempotent (db : DB) (A B : Nat) (na nb : Option String)
    (hpair : ∀ r ∈ db.invitations, ¬(r.inviterId = A ∧ r.invitedId = B))
    (hA : ∀ r ∈ db.ranking, r.userId ≠ A) :
    (registerInvitation db A na B nb).1 = true ∧
    (registerInvitation (registerInvitation db A na B nb).2 A na B nb).1 = false ∧
    (registerInvitation (registerInvitation db A na B nb).2 A na B nb).2 =
      (registerInvitation db A na B nb).2 ∧
    (((registerInvitation (registerInvitation db A na B nb).2 A na B nb).2).invitations.filter
        (fun r => r.inviterId == A && r.invitedId == B)).length = 1 ∧
    getUserInvitations
      ((registerInvitation (registerInvitation db A na B nb).2 A na B nb).2) A = 1 := by
  have hchk : invPairExists db A B = false := by
    unfold invPairExists
    rw [List.any_eq_false]
    intro r hr hpr
    rcases Bool.and_eq_true_iff.mp hpr with ⟨h1, h2⟩
    exact hpair r hr ⟨eq_of_beq h1, eq_of_beq h2⟩
  have hups : upsertRanking db.ranking A (na.getD "Unknown") =
      db.ranking ++ [⟨A, na.getD "Unknown", 1⟩] := by
    unfold upsertRanking
    have hany : db.ranking.any (fun r => r.userId == A) = false := by
      rw [List.any_eq_false]
      intro r hr hpr
      exact hA r hr (eq_of_beq hpr)
    rw [hany]
    rfl
  have hreg1 : registerInvitation db A na B nb =
      (true, ⟨db.invitations ++ [⟨A, na, B, nb⟩],
              upsertRanking db.ranking A (na.getD "Unknown")⟩) := by
    unfold registerInvitation
    rw [hchk]
    rfl
  have hsnd : (registerInvitation db A na B nb).2 =
      (⟨db.invitations ++ [⟨A, na, B, nb⟩],
        db.ranking ++ [⟨A, na.getD "Unknown", 1⟩]⟩ : DB) := by
    rw [hreg1, hups]
  have hchk2 : invPairExists
      (⟨db.invitations ++ [⟨A, na, B, nb⟩],
        db.ranking ++ [⟨A, na.getD "Unknown", 1⟩]⟩ : DB) A B = true := by
    unfold invPairExists
    simp
  have hreg2 : registerInvitation
      (⟨db.invitations ++ [⟨A, na, B, nb⟩],
        db.ranking ++ [⟨A, na.getD "Unknown", 1⟩]⟩ : DB) A na B nb =
      (false, ⟨db.invitations ++ [⟨A, na, B, nb⟩],
               db.ranking ++ [⟨A, na.getD "Unknown", 1⟩]⟩) := by
    unfold registerInvitation
    rw [hchk2]
    rfl
  have hfilterNil :
      db.invitations.filter (fun r => r.inviterId == A && r.invitedId == B) = [] := by
    rw [List.filter_eq_nil_iff]
    intro r hr hpr
    rcases Bool.and_eq_true_iff.mp hpr with ⟨h1, h2⟩
    exact hpair r hr ⟨eq_of_beq h1, eq_of_beq h2⟩
  have hfindNone : db.ranking.find? (fun r => r.userId == A) = none := by
    rw [List.find?_eq_none]
    intro r hr hpr
    exact hA r hr (eq_of_beq hpr)
  refine ⟨by rw [hreg1], ?_, ?_, ?_, ?_⟩
  · rw [hsnd, hreg2]
  · rw [hsnd, hreg2]
  · rw [hsnd, hreg2]
    simp [hfilterNil]
  · rw [hsnd, hreg2]
    unfold getUserInvitations
    rw [List.find?_append, hfindNone, Option.none_or]
    simp

/-- C1 witness: users 1 and 2 from the empty database. -/
theorem c1_witness :
    (registerInvitation emptyDB 1 none 2 none).1 = true ∧
    (registerInvitation (registerInvitation emptyDB 1 none 2 none).2 1 none 2 none).1
      = false ∧
    (registerInvitation (registerInvitation emptyDB 1 none 2 none).2 1 none 2 none).2 =
      (registerInvitation emptyDB 1 none 2 none).2 ∧
    (((registerInvitation (registerInvitation emptyDB 1 none 2 none).2 1 none 2 none).2).invitations.filter
        (fun r => r.inviterId == 1 && r.invitedId == 2)).length = 1 ∧
    getUserInvitations
      ((registerInvitation (registerInvitation emptyDB 1 none 2 none).2 1 none 2 none).2) 1
      = 1 :=
  c1_register_idempotent emptyDB 1 2 none none (by simp [emptyDB]) (by simp [emptyDB])

/-- A ranking table holding only user 1 with count 5. -/
def dbOnlyAlice : DB := ⟨[], [⟨1, "alice", 5⟩]⟩

/-- C6 counterexample: user 1 has count 5, user 2 (no ranking row) has count
0, yet both get position 1 — the NULL subquery for the absent user excludes
every row — so strictly greater count does not give strictly smaller
position for arbitrary users. -/
theorem c6_counterexample :
    getUserInvitations dbOnlyAlice 1 > getUserInvitations dbOnlyAlice 2 ∧
    ¬ getUserRankingPosition dbOnlyAlice 1 < getUserRankingPosition dbOnlyAlice 2 := by
  decide

/-- C6 (amended: restricted to a user V that has a `ranking` row, as §4.1's
"absent user is undefined (callers must check getUserCount first)"
stipulates): whenever `getUserInvitations U > getUserInvitations V`, the
1-based position of U is strictly smaller than that of V. -/
theorem c6_rank_monotone (db : DB) (U V : Nat) (vRow : RankingRow)
    (hv : db.ranking.find? (fun r => r.userId == V) = some vRow)
    (hgt : getUserInvitations db U > getUserInvitations db V) :
    getUserRankingPosition db U < getUserRankingPosition db V := by
  have hcV : getUserInvitations db V = vRow.count := by
    unfold getUserInvitations
    rw [hv]
  obtain ⟨uRow, hu⟩ : ∃ uRow, db.ranking.find? (fun r => r.userId == U) = some uRow := by
    cases h : db.ranking.find? (fun r => r.userId == U) with
    | none =>
      exfalso
      have : getUserInvitations db U = 0 := by
        unfold getUserInvitations
        rw [h]
      omega
    | some uRow => exact ⟨uRow, rfl⟩
  have hcU : getUserInvitations db U = uRow.count := by
    unfold getUserInvitations
    rw [hu]
  have hlt : vRow.count < uRow.count := by
    rw [hcU, hcV] at hgt
    exact hgt
  have huMem : uRow ∈ db.ranking := List.mem_of_find?_eq_some hu
  have hstrict :
      (db.ranking.filter (fun r => sqlGtNullable r.count (some uRow.count))).length <
      (db.ranking.filter (fun r => sqlGtNullable r.count (some vRow.count))).length := by
    apply filter_length_strict db.ranking ?_ uRow huMem ?_ ?_
    · intro x _ hx
      simp only [sqlGtNullable, decide_eq_true_eq] at hx ⊢
      omega
    · simp only [sqlGtNullable, decide_eq_true_eq]
      exact hlt
    · simp only [sqlGtNullable, decide_eq_false_iff_not]
      omega
  have hposU : getUserRankingPosition db U =
      1 + (db.ranking.filter (fun r => sqlGtNullable r.count (some uRow.count))).length := by
    unfold getUserRankingPosition rankingCountSubquery
    rw [hu]
    rfl
  have hposV : getUserRankingPosition db V =
      1 + (db.ranking.filter (fun r => sqlGtNullable r.count (some vRow.count))).length := by
    unfold getUserRankingPosition rankingCountSubquery
    rw [hv]
    rfl
  rw [hposU, hposV]
  exact Nat.add_lt_add_left hstrict 1

/-- C6 witness: counts 5 versus 3 give positions 1 versus 2. -/
theorem c6_witness :
    getUserRankingPosition (⟨[], [⟨1, "alice", 5⟩, ⟨2, "bob", 3⟩]⟩ : DB) 1 <
    getUserRankingPosition (⟨[], [⟨1, "alice", 5⟩, ⟨2, "bob", 3⟩]⟩ : DB) 2 :=
  c6_rank_monotone _ 1 2 ⟨2, "bob", 3⟩ (by decide) (by decide)

/-- `find?` by user id commutes with mapping a `userId`-preserving function
over the table. -/
theorem find_map_of_userId_preserved (A : Nat) (f : RankingRow → RankingRow)
    (hpres : ∀ r, (f r).userId = r.userId) :
    ∀ l : List RankingRow,
      (l.map f).find? (fun r => r.userId == A) =
        (l.find? (fun r => r.userId == A)).map f
  | [] => rfl
  | a :: t => by
    by_cases ha : (a.userId == A) = true
    · have hfa : ((f a).userId == A) = true := by rw [hpres a]; exact ha
      rw [List.map_cons, List.find?_cons_of_pos (List.map f t) hfa,
        List.find?_cons_of_pos t ha]
      rfl
    · have hfa : ¬ ((f a).userId == A) = true := by rw [hpres a]; exact ha
      rw [List.map_cons, List.find?_cons_of_neg (List.map f t) hfa,
        List.find?_cons_of_neg t ha]
      exact find_map_of_userId_preserved A f hpres t

/-- The state after user 1 invited user 2. -/
def dbPriorInvite : DB := (registerInvitation emptyDB 1 (some "carol") 2 (some "bob")).2

/-- C5 counterexample: user 2 already has an invitation row from user 1;
user 3 then also registers an invitation of user 2 (the pair `(3, 2)` is
new, so it succeeds and 3's counter becomes 1); when user 2 leaves, the
reversal reads the FIRST invitation row — crediting user 1 — and deletes
all of user 2's rows, so `getUserInvitations 3` stays 1 instead of
returning to its pre-invite value 0. -/
theorem c5_counterexample :
    (registerInvitation dbPriorInvite 3 (some "alice") 2 (some "bob")).1 = true ∧
    getUserInvitations dbPriorInvite 3 = 0 ∧
    getUserInvitations
      (reverseInvite
        (registerInvitation dbPriorInvite 3 (some "alice") 2 (some "bob")).2 2) 3
      = 1 := by
  decide

/-- C5 (amended: stated for a leaving user B with no pre-existing invitation
row, so that the reversal finds A's row first; the counterexample shows the
original claim fails when B was already invited by someone else): after a
successful `registerInvitation A _ B _` followed by the leave-branch
reversal for B, A's counter returns to its pre-invite value, and when that
value was 0 — the counter having reached 0 — no row for A remains among
the rows `getRanking` selects. -/
theorem c5_reverse_restores (db : DB) (A B : Nat) (na nb : Option String)
    (hB : ∀ r ∈ db.invitations, r.invitedId ≠ B) :
    (registerInvitation db A na B nb).1 = true ∧
    getUserInvitations (reverseInvite (registerInvitation db A na B nb).2 B) A =
      getUserInvitations db A ∧
    (getUserInvitations db A = 0 →
      ∀ r ∈ rankingTop (reverseInvite (registerInvitation db A na B nb).2 B),
        r.userId ≠ A) := by
  have hchk : invPairExists db A B = false := by
    unfold invPairExists
    rw [List.any_eq_false]
    intro r hr hpr
    rcases Bool.and_eq_true_iff.mp hpr with ⟨_, h2⟩
    exact hB r hr (eq_of_beq h2)
  have hreg1 : registerInvitation db A na B nb =
      (true, ⟨db.invitations ++ [⟨A, na, B, nb⟩],
              upsertRanking db.ranking A (na.getD "Unknown")⟩) := by
    unfold registerInvitation
    rw [hchk]
    rfl
  have hsnd : (registerInvitation db A na B nb).2 =
      (⟨db.invitations ++ [⟨A, na, B, nb⟩],
        upsertRanking db.ranking A (na.getD "Unknown")⟩ : DB) := by
    rw [hreg1]
  have hfindBnone : db.invitations.find? (fun r => r.invitedId == B) = none := by
    rw [List.find?_eq_none]
    intro r hr hpr
    exact hB r hr (eq_of_beq hpr)
  have hfindB : (db.invitations ++ [(⟨A, na, B, nb⟩ : InvitationRow)]).find?
      (fun r => r.invitedId == B) = some ⟨A, na, B, nb⟩ := by
    rw [List.find?_append, hfindBnone, Option.none_or]
    simp
  have hfiltInv : (db.invitations ++ [(⟨A, na, B, nb⟩ : InvitationRow)]).filter
      (fun r => !(r.invitedId == B)) = db.invitations := by
    rw [List.filter_append]
    have h1 : db.invitations.filter (fun r => !(r.invitedId == B)) = db.invitations :=
      List.filter_eq_self.mpr (fun r hr => by simp [hB r hr])
    have h2 : [(⟨A, na, B, nb⟩ : InvitationRow)].filter
        (fun r => !(r.invitedId == B)) = [] := by simp
    rw [h1, h2, List.append_nil]
  rw [hsnd]
  refine ⟨by rw [hreg1], ?_⟩
  by_cases hAny : db.ranking.any (fun r => r.userId == A) = true
  · -- A already has a ranking row: the upsert increments it in place and the
    -- reversal decrements it back (or deletes it when it was 0).
    have hups : upsertRanking db.ranking A (na.getD "Unknown") =
        db.ranking.map (fun r =>
          if r.userId == A then
            { r with count := r.count + 1, username := na.getD "Unknown" }
          else r) := by
      unfold upsertRanking
      rw [hAny]
      rfl
    have hpresInc : ∀ r : RankingRow,
        ((fun r =>
          if r.userId == A then
            { r with count := r.count + 1, username := na.getD "Unknown" }
          else r) r).userId = r.userId := by
      intro r
      by_cases h : (r.userId == A) = true <;> simp [h]
    obtain ⟨aRow, hfindA⟩ : ∃ aRow,
        db.ranking.find? (fun r => r.userId == A) = some aRow := by
      rcases List.any_eq_true.mp hAny with ⟨a0, ha0, hpa0⟩
      exact Option.isSome_iff_exists.mp
        (List.find?_isSome.mpr ⟨a0, ha0, hpa0⟩)
    have haA' := List.find?_some hfindA
    have haA : (aRow.userId == A) = true := haA'
    have hcountA : getUserInvitations db A = aRow.count := by
      unfold getUserInvitations
      rw [hfindA]
    have hfindMap : (db.ranking.map (fun r =>
        if r.userId == A then
          { r with count := r.count + 1, username := na.getD "Unknown" }
        else r)).find? (fun r => r.userId == A) =
        some { aRow with count := aRow.count + 1, username := na.getD "Unknown" } := by
      rw [find_map_of_userId_preserved A _ hpresInc, hfindA, Option.map_some']
      rw [if_pos haA]
    by_cases hc0 : aRow.count = 0
    · -- the counter was 0: after increment and decrement it reaches 0 and the
      -- row is deleted.
      have hrev : reverseInvite
          (⟨db.invitations ++ [⟨A, na, B, nb⟩],
            upsertRanking db.ranking A (na.getD "Unknown")⟩ : DB) B =
          ⟨db.invitations,
            (db.ranking.map (fun r =>
              if r.userId == A then
                { r with count := r.count + 1, username := na.getD "Unknown" }
              else r)).filter (fun r => !(r.userId == A))⟩ := by
        unfold reverseInvite
        rw [hups]
        dsimp only
        rw [hfindB]
        dsimp only
        rw [hfindMap]
        dsimp only
        rw [hfiltInv]
        simp [hc0]
      rw [hrev]
      have hnoA : ∀ r ∈ (db.ranking.map (fun r =>
          if r.userId == A then
            { r with count := r.count + 1, username := na.getD "Unknown" }
          else r)).filter (fun r => !(r.userId == A)), r.userId ≠ A := by
        intro r hr heq
        have hpr := (List.mem_filter.mp hr).2
        rw [heq] at hpr
        simp at hpr
      constructor
      · have hfnone : ((db.ranking.map (fun r =>
            if r.userId == A then
              { r with count := r.count + 1, username := na.getD "Unknown" }
            else r)).filter (fun r => !(r.userId == A))).find?
            (fun r => r.userId == A) = none := by
          rw [List.find?_eq_none]
          intro r hr hpr
          exact hnoA r hr (eq_of_beq hpr)
        unfold getUserInvitations
        dsimp only
        rw [hfnone, hfindA]
        exact hc0.symm
      · intro _ r hr
        exact hnoA r (List.mem_mergeSort.mp (List.mem_of_mem_take hr))
    · -- the counter was positive: it is decremented back to its old value.
      have hrev : reverseInvite
          (⟨db.invitations ++ [⟨A, na, B, nb⟩],
            upsertRanking db.ranking A (na.getD "Unknown")⟩ : DB) B =
          ⟨db.invitations,
            (db.ranking.map (fun r =>
              if r.userId == A then
                { r with count := r.count + 1, username := na.getD "Unknown" }
              else r)).map (fun r =>
              if r.userId == A then { r with count := aRow.count } else r)⟩ := by
        unfold reverseInvite
        rw [hups]
        dsimp only
        rw [hfindB]
        dsimp only
        rw [hfindMap]
        dsimp only
        rw [hfiltInv]
        simp [hc0]
      rw [hrev]
      have hpresDec : ∀ r : RankingRow,
          ((fun r => if r.userId == A then { r with count := aRow.count } else r)
            r).userId = r.userId := by
        intro r
        by_cases h : (r.userId == A) = true <;> simp [h]
      constructor
      · unfold getUserInvitations
        dsimp only
        rw [find_map_of_userId_preserved A _ hpresDec, hfindMap, hfindA,
          Option.map_some']
        rw [if_pos haA]
      · intro h0
        rw [hcountA] at h0
        exact absurd h0 hc0
  · -- A had no ranking row: the upsert appends a count-1 row, the reversal
    -- deletes it again.
    have hAny' : db.ranking.any (fun r => r.userId == A) = false :=
      Bool.eq_false_iff.mpr hAny
    have hnoA : ∀ r ∈ db.ranking, ¬ (r.userId == A) = true :=
      List.any_eq_false.mp hAny'
    have hups : upsertRanking db.ranking A (na.getD "Unknown") =
        db.ranking ++ [⟨A, na.getD "Unknown", 1⟩] := by
      unfold upsertRanking
      rw [hAny']
      rfl
    have hfindAnone : db.ranking.find? (fun r => r.userId == A) = none :=
      List.find?_eq_none.mpr hnoA
    have hfindA : (db.ranking ++
        [(⟨A, na.getD "Unknown", 1⟩ : RankingRow)]).find?
        (fun r => r.userId == A) = some ⟨A, na.getD "Unknown", 1⟩ := by
      rw [List.find?_append, hfindAnone, Option.none_or]
      simp
    have hfiltRank : (db.ranking ++
        [(⟨A, na.getD "Unknown", 1⟩ : RankingRow)]).filter
        (fun r => !(r.userId == A)) = db.ranking := by
      rw [List.filter_append]
      have h1 : db.ranking.filter (fun r => !(r.userId == A)) = db.ranking :=
        List.filter_eq_self.mpr (fun r hr => by
          simp [Bool.eq_false_iff.mpr (hnoA r hr)])
      have h2 : [(⟨A, na.getD "Unknown", 1⟩ : RankingRow)].filter
          (fun r => !(r.userId == A)) = [] := by simp
      rw [h1, h2, List.append_nil]
    have hrev : reverseInvite
        (⟨db.invitations ++ [⟨A, na, B, nb⟩],
          upsertRanking db.ranking A (na.getD "Unknown")⟩ : DB) B =
        ⟨db.invitations, db.ranking⟩ := by
      unfold reverseInvite
      rw [hups]
      dsimp only
      rw [hfindB]
      dsimp only
      rw [hfindA]
      dsimp only
      rw [hfiltInv]
      simp [hfiltRank]
    rw [hrev]
    constructor
    · rfl
    · intro _ r hr heq
      have hmem : r ∈ db.ranking := List.mem_mergeSort.mp (List.mem_of_mem_take hr)
      apply hnoA r hmem
      rw [heq]
      simp

/-- C5 witness: user 3 invites user 2 from the empty state and user 2
leaves; 3's counter returns to 0 and 3 is absent from the ranking rows. -/
theorem c5_witness :
    (registerInvitation emptyDB 3 (some "alice") 2 (some "bob")).1 = true ∧
    getUserInvitations
      (reverseInvite (registerInvitation emptyDB 3 (some "alice") 2 (some "bob")).2 2) 3 =
      getUserInvitations emptyDB 3 ∧
    (getUserInvitations emptyDB 3 = 0 →
      ∀ r ∈ rankingTop
        (reverseInvite (registerInvitation emptyDB 3 (some "alice") 2 (some "bob")).2 2),
        r.userId ≠ 3) :=
  c5_reverse_restores emptyDB 3 2 (some "alice") (some "bob") (by simp [emptyDB])

end Invitebot
